import Mathlib

/-!
Shallow embedding of `treesitter_setup.py` (class `TreeSitterSetup`).

The program provisions tree-sitter grammar parsers: it keeps a persisted set of
installed languages, clones grammar repositories, resolves the translation
units of each grammar, compiles them into a shared library with a per-OS
strategy, and records success in the installed set.

External nondeterminism (which OS we run on, which tools are on the search
path, what a clone produces, whether a compiler invocation succeeds) is
captured in an `Env` record; the mutable world of the program (the in-memory
installed set, the persisted state file, the clone directories and the
per-language build directories) is a `SetupState`.  Every operation of the
source is a total Lean function from `Env` and `SetupState`; exceptions are
modelled as `Option Err` results and `sys.exit` as a `DepOutcome.exited`
value.  Each function also reports the externally visible actions it performed
(cloning, source resolution, build attempts) and the translation units it
handed to a compiler, so that the spec's claims about those can be stated.
-/

/-- Operating system family, as distinguished by `platform.system()` in the
source: `Windows`, `Linux`, or anything else (for example Darwin, which is
Unix-like but is neither of the two strings the source tests for). -/
inductive OS
  | windows
  | linux
  | other
deriving DecidableEq

/-- Errors raised by the program (Python exceptions). -/
inductive Err
  | unsupportedLanguage (lang : String)
  | cloneFailed (lang : String)
  | submoduleFailed (lang : String)
  | noSourceFiles (lang : String)
  | compileFailed (lang : String)
  | linkFailed (lang : String)
  | msvcNotFound
  | scannerMissing (lang : String)
  | runtimeOutdated
  | venvFailed
  | pipFailed
deriving DecidableEq

/-- Externally visible pipeline actions: cloning a grammar, resolving its
source set, attempting a build. -/
inductive Act
  | cloneAct (lang : String)
  | resolveAct (lang : String)
  | buildAct (lang : String)
deriving DecidableEq

/-- Content of the persisted state file `.installed`, classified by how
`set(json.load(f))` treats it.  `valid` is a well-formed JSON array of
strings — the format the writer produces.  A parseable payload that is not
such an array is not necessarily rejected: `set()` iterates whatever
`json.load` returned, so a JSON string (`strPayload`) yields the set of its
characters and a JSON object (`objPayload`) the set of its keys, both sets
of strings.  `invalid` is content on which `json.load` or `set()` raises:
unparseable text, a number, a boolean, `null`, or an array with an
unhashable member.  (A JSON array with hashable non-string members also
loads without raising, into a set holding non-string members; the
embedding's installed set is string-typed, so such payloads are outside
this model and no statement here quantifies over them.) -/
inductive StateFileContent
  | valid (ids : List String)
  | strPayload (s : String)
  | objPayload (keys : List String)
  | invalid
deriving DecidableEq

/-- A path inside a clone directory, as a list of components relative to the
per-language `parsers/<language>` directory. -/
abbrev SrcPath := List String

/-- The static registry `LANGUAGE_CONFIGS`: language identifier to grammar
repository URL. -/
def languageConfigs : List (String × String) :=
  [("python", "https://github.com/tree-sitter/tree-sitter-python"),
   ("javascript", "https://github.com/tree-sitter/tree-sitter-javascript"),
   ("typescript", "https://github.com/tree-sitter/tree-sitter-typescript"),
   ("rust", "https://github.com/tree-sitter/tree-sitter-rust"),
   ("go", "https://github.com/tree-sitter/tree-sitter-go"),
   ("cpp", "https://github.com/tree-sitter/tree-sitter-cpp"),
   ("c", "https://github.com/tree-sitter/tree-sitter-c"),
   ("java", "https://github.com/tree-sitter/tree-sitter-java"),
   ("ruby", "https://github.com/tree-sitter/tree-sitter-ruby"),
   ("php", "https://github.com/tree-sitter/tree-sitter-php"),
   ("c_sharp", "https://github.com/tree-sitter/tree-sitter-c-sharp"),
   ("html", "https://github.com/tree-sitter/tree-sitter-html"),
   ("css", "https://github.com/tree-sitter/tree-sitter-css"),
   ("bash", "https://github.com/tree-sitter/tree-sitter-bash"),
   ("yaml", "https://github.com/ikatyang/tree-sitter-yaml"),
   ("json", "https://github.com/tree-sitter/tree-sitter-json"),
   ("toml", "https://github.com/tree-sitter/tree-sitter-toml"),
   ("regex", "https://github.com/tree-sitter/tree-sitter-regex"),
   ("markdown", "https://github.com/ikatyang/tree-sitter-markdown")]

/-- The configured language identifiers, in registry order. -/
def languageNames : List String := languageConfigs.map Prod.fst

/-- Dictionary lookup `LANGUAGE_CONFIGS[language]['url']`. -/
def lookupUrl (lang : String) : Option String := languageConfigs.lookup lang

/-- Membership test `language in LANGUAGE_CONFIGS`. -/
def supported (lang : String) : Bool := (lookupUrl lang).isSome

/-- External nondeterminism: the OS, the available tools, and the outcome of
every external process the program can spawn. -/
structure Env where
  os : OS
  /-- `which <tool>` succeeds for this tool (git, gcc, g plus plus). -/
  toolOnPath : String → Bool
  /-- running `cl` does not raise `FileNotFoundError` on Windows. -/
  clOnPath : Bool
  /-- `import tree_sitter` succeeds. -/
  pyPkgOk : Bool
  /-- a required `pip install` invocation succeeds. -/
  pipOk : Bool
  /-- on Linux, the virtual environment is created and its pip exists. -/
  venvPipOk : Bool
  /-- result of `git clone` per language: `none` means the clone fails,
  `some tree` is the resulting clone content. -/
  cloneTree : String → Option (List SrcPath)
  /-- `git submodule init`/`update` succeed (only run for typescript). -/
  submoduleOk : Bool
  /-- Unix `cc` compile of one translation unit succeeds. -/
  ccOk : String → SrcPath → Bool
  /-- Unix `c++` compile of one translation unit succeeds. -/
  cxxOk : String → SrcPath → Bool
  /-- Unix `c++ -shared` link succeeds. -/
  unixLinkOk : String → Bool
  /-- `_setup_msvc_environment` finds Visual Studio, the MSVC tools and the
  Windows SDK. -/
  msvcFound : Bool
  /-- the single `cl /LD @response` invocation succeeds. -/
  clOk : String → Bool
  /-- the fallback `cl /c scanner.c` invocation succeeds. -/
  scannerClOk : String → Bool
  /-- the fallback `link /DLL` invocation succeeds. -/
  scannerLinkOk : String → Bool
  /-- a `clang -c` compile on the Windows php path succeeds. -/
  clangOk : String → SrcPath → Bool
  /-- the `clang -shared` link on the Windows php path succeeds. -/
  clangLinkOk : String → Bool
  /-- the external tree-sitter runtime accepts the artifact
  (`Parser.set_language` exists and loading succeeds). -/
  runtimeOk : Bool

/-- The program's mutable world: the in-memory installed set, the persisted
state file, the clone directory per language (`none` when not cloned), and
the file names present in each per-language build directory. -/
structure SetupState where
  installedLanguages : List String
  installedFile : Option StateFileContent
  clones : String → Option (List SrcPath)
  builds : String → List String

/-- Record a freshly cloned tree for a language. -/
def setClone (st : SetupState) (lang : String) (tree : List SrcPath) : SetupState :=
  { st with clones := fun l => if l = lang then some tree else st.clones l }

/-- Replace the content of one per-language build directory. -/
def setBuild (st : SetupState) (lang : String) (bf : List String) : SetupState :=
  { st with builds := fun l => if l = lang then bf else st.builds l }

/-- Method `_load_installed_languages`: an absent file gives the empty set;
content on which `json.load` or `set(...)` raises is swallowed by the bare
`except` and also gives the empty set.  Every parseable iterable payload,
however, becomes the set of its iterated elements without any shape check:
a well-formed array of identifiers gives the set of its members, a JSON
string the set of its one-character substrings, and a JSON object the set
of its keys. -/
def loadInstalledLanguages : Option StateFileContent → List String
  | none => []
  | some StateFileContent.invalid => []
  | some (StateFileContent.valid ids) => ids.dedup
  | some (StateFileContent.strPayload s) => (s.toList.map fun c => String.mk [c]).dedup
  | some (StateFileContent.objPayload keys) => keys.dedup

/-- Constructor `__init__`: load the installed set from the state file; the
file on disk itself is left as it is, and nothing is cloned or built yet. -/
def initState (f : Option StateFileContent) : SetupState :=
  { installedLanguages := loadInstalledLanguages f
    installedFile := f
    clones := fun _ => none
    builds := fun _ => [] }

/-- Final name component of a path (Python `Path.name`). -/
def fileNameOf (p : SrcPath) : String := p.getLastD ""

/-- Directory part of a path. -/
def parentOf (p : SrcPath) : List String := p.dropLast

/-- Split a character list on the dot character (the groups of
`name.split('.')`). -/
def splitOnDot : List Char → List (List Char)
  | [] => [[]]
  | c :: rest =>
    let r := splitOnDot rest
    if c = '.' then [] :: r
    else
      match r with
      | [] => [[c]]
      | g :: gs => (c :: g) :: gs

/-- Rejoin dot-separated groups. -/
def joinDots : List (List Char) → List Char
  | [] => []
  | [g] => g
  | g :: gs => g ++ '.' :: joinDots gs

/-- Python `Path.suffix`: the final extension with its dot, empty when the
name has no dot or is a dot file such as `.c`. -/
def suffixOf (name : String) : String :=
  match splitOnDot name.toList with
  | [] => ""
  | [_] => ""
  | [[], _] => ""
  | parts => "." ++ String.mk (parts.getLastD [])

/-- Python `Path.stem`: the final name component without its last suffix. -/
def stemOf (name : String) : String :=
  match splitOnDot name.toList with
  | [] => name
  | [_] => name
  | [[], _] => name
  | parts => String.mk (joinDots parts.dropLast)

/-- Non-recursive glob `dir/*.ext`: the files directly under `d` whose suffix
is `ext`. -/
def globExt (tree : List SrcPath) (d : List String) (ext : String) : List SrcPath :=
  tree.filter fun p => decide (parentOf p = d) && decide (suffixOf (fileNameOf p) = ext)

/-- Recursive glob `**/*.c` over the whole clone. -/
def allCFiles (tree : List SrcPath) : List SrcPath :=
  tree.filter fun p => decide (suffixOf (fileNameOf p) = ".c")

/-- Component-wise prefix test on paths. -/
def startsWithDir : List String → List String → Bool
  | [], _ => true
  | _ :: _, [] => false
  | d :: ds, x :: xs => d == x && startsWithDir ds xs

/-- Directory existence inside a clone: some file lies strictly below it. -/
def dirExistsIn (tree : List SrcPath) (d : List String) : Bool :=
  tree.any fun p => startsWithDir d p && decide (d.length < p.length)

/-- Method `_get_source_files`: per-grammar source resolution.  typescript
takes the `.c` files of `typescript/src` and of `src`; php takes
`php/src/*.c` plus an optional `scanner.cc` or `scanner.c` in `php/src`;
yaml and markdown take `src/*.c` plus an optional `scanner.cc` or
`scanner.c` in `src` (appended even when the glob already matched it);
every other language takes `src/*.c`, falling back to a recursive search of
the whole clone when that glob is empty. -/
def getSourceFiles (lang : String) (tree : List SrcPath) : List SrcPath :=
  if lang = "typescript" then
    (if dirExistsIn tree ["typescript", "src"] then globExt tree ["typescript", "src"] ".c" else [])
      ++ (if dirExistsIn tree ["src"] then globExt tree ["src"] ".c" else [])
  else if lang = "php" then
    globExt tree ["php", "src"] ".c"
      ++ (if ["php", "src", "scanner.cc"] ∈ tree then [["php", "src", "scanner.cc"]] else [])
      ++ (if ["php", "src", "scanner.c"] ∈ tree then [["php", "src", "scanner.c"]] else [])
  else if lang = "yaml" ∨ lang = "markdown" then
    globExt tree ["src"] ".c"
      ++ (if ["src", "scanner.cc"] ∈ tree then [["src", "scanner.cc"]] else [])
      ++ (if ["src", "scanner.c"] ∈ tree then [["src", "scanner.c"]] else [])
  else
    let cFiles := globExt tree ["src"] ".c"
    if cFiles.isEmpty then allCFiles tree else cFiles

/-- Create a file in a build directory (overwriting keeps one copy). -/
def addFile (bf : List String) (n : String) : List String :=
  if n ∈ bf then bf else bf ++ [n]

/-- `Path.unlink` of one file name. -/
def removeFile (bf : List String) (n : String) : List String :=
  bf.filter fun m => decide (m ≠ n)

/-- The extensions removed by `_cleanup_build_artifacts`. -/
def cleanupExts : List String := [".exp", ".lib", ".obj", ".pdb", ".ilk", ".o"]

/-- Method `_cleanup_build_artifacts`: delete every file of the build
directory whose suffix is one of the intermediate-artifact extensions. -/
def cleanupBuildArtifacts (bf : List String) : List String :=
  bf.filter fun n => !(decide (suffixOf n ∈ cleanupExts))

/-- A build directory holds no intermediate artifact. -/
def noIntermediates (bf : List String) : Bool :=
  bf.all fun n => !(decide (suffixOf n ∈ cleanupExts))

/-- Outcome of one build strategy: the error if any, the resulting content of
the build directory, and the translation units handed to a compiler, in
order. -/
structure BuildRes where
  err : Option Err
  files : List String
  units : List SrcPath
deriving DecidableEq

/-- Sequentially compile translation units (`subprocess.run(..., check=True)`
per unit): each success drops an object file `stem + objExt` into the build
directory; the first failure raises, ending the loop.  Returns the error if
any, the build directory content, and the units handed to the compiler. -/
def compileSeq (ok : SrcPath → Bool) (lang : String) (objExt : String)
    (bf : List String) : List SrcPath → Option Err × List String × List SrcPath
  | [] => (none, bf, [])
  | s :: rest =>
    if ok s then
      let r := compileSeq ok lang objExt (addFile bf (stemOf (fileNameOf s) ++ objExt)) rest
      (r.1, r.2.1, s :: r.2.2)
    else (some (Err.compileFailed lang), bf, [s])

/-- The `.c` translation units of a source list (Python `f.suffix == '.c'`). -/
def cSrcOf (fs : List SrcPath) : List SrcPath :=
  fs.filter fun f => decide (suffixOf (fileNameOf f) = ".c")

/-- The C++ translation units of a source list
(`f.suffix in ['.cc', '.cpp']`). -/
def cppSrcOf (fs : List SrcPath) : List SrcPath :=
  fs.filter fun f =>
    decide (suffixOf (fileNameOf f) = ".cc") || decide (suffixOf (fileNameOf f) = ".cpp")

/-- Method `_build_unix`: compile `set(c_sources)` with `cc` and
`set(cpp_sources)` with `c++`, each unit to its own object file, then link
everything into `parser.so` with `c++ -shared`.  No cleanup of the object
files is performed on this path. -/
def buildUnix (env : Env) (lang : String) (srcFiles : List SrcPath)
    (bf : List String) : BuildRes :=
  let r1 := compileSeq (env.ccOk lang) lang ".o" bf (cSrcOf srcFiles).dedup
  if r1.1.isSome then ⟨r1.1, r1.2.1, r1.2.2⟩
  else
    let r2 := compileSeq (env.cxxOk lang) lang ".o" r1.2.1 (cppSrcOf srcFiles).dedup
    if r2.1.isSome then ⟨r2.1, r2.2.1, r1.2.2 ++ r2.2.2⟩
    else if env.unixLinkOk lang then ⟨none, addFile r2.2.1 "parser.so", r1.2.2 ++ r2.2.2⟩
    else ⟨some (Err.linkFailed lang), r2.2.1, r1.2.2 ++ r2.2.2⟩

/-- Method `_build_windows_php`: compile `set(c_files)` one by one with
clang to `.obj` files, link them into `parser.dll` with clang, and clean up
the intermediates only after a successful link (a failing compile or link
raises before the cleanup line). -/
def buildWindowsPhp (env : Env) (lang : String) (srcFiles : List SrcPath)
    (bf : List String) : BuildRes :=
  let r := compileSeq (env.clangOk lang) lang ".obj" bf srcFiles.dedup
  if r.1.isSome then ⟨r.1, r.2.1, r.2.2⟩
  else if env.clangLinkOk lang then
    ⟨none, cleanupBuildArtifacts (addFile r.2.1 "parser.dll"), r.2.2⟩
  else ⟨some (Err.linkFailed lang), r.2.1, r.2.2⟩

/-- Method `_build_windows_scanner`: the narrower fallback used for yaml and
markdown after a failed `cl` run; compiles `src/scanner.c` alone, then links
`parser.obj` and `scanner.obj` into `parser.dll`.  Raises when the scanner
file does not exist.  Returns the error if any, the build directory content,
and the units handed to the compiler. -/
def buildWindowsScanner (env : Env) (lang : String) (tree : List SrcPath)
    (bf : List String) : Option Err × List String × List SrcPath :=
  if ["src", "scanner.c"] ∈ tree then
    if env.scannerClOk lang then
      let bf1 := addFile bf "scanner.obj"
      if env.scannerLinkOk lang then
        (none, addFile bf1 "parser.dll", [["src", "scanner.c"]])
      else (some (Err.linkFailed lang), bf1, [["src", "scanner.c"]])
    else (some (Err.compileFailed lang), bf, [["src", "scanner.c"]])
  else (some (Err.scannerMissing lang), bf, [])

/-- Method `_build_windows`: php is routed to the clang strategy; otherwise
the MSVC environment is set up (raising when not found), every resolved
source path is written into a response file with no deduplication, and a
single `cl /LD` run compiles and links them into `parser.dll`.  On a `cl`
failure, yaml and markdown retry via the scanner fallback and every other
language raises.  A `finally` block always unlinks the response file and
removes the intermediate artifacts. -/
def buildWindows (env : Env) (lang : String) (tree srcFiles : List SrcPath)
    (bf : List String) : BuildRes :=
  if lang = "php" then buildWindowsPhp env lang srcFiles bf
  else if env.msvcFound then
    let step :=
      if env.clOk lang then
        ((none : Option Err),
          addFile (addFile (addFile (addFile (addFile bf "sources.rsp")
            "parser.dll") "parser.pdb") "parser.lib") "parser.exp",
          ([] : List SrcPath))
      else if lang = "yaml" ∨ lang = "markdown" then
        buildWindowsScanner env lang tree (addFile bf "sources.rsp")
      else (some (Err.compileFailed lang), addFile bf "sources.rsp", ([] : List SrcPath))
    ⟨step.1, cleanupBuildArtifacts (removeFile step.2.1 "sources.rsp"), srcFiles ++ step.2.2⟩
  else ⟨some Err.msvcNotFound, bf, []⟩

/-- Outcome of `_clone_parser`. -/
structure CloneRes where
  err : Option Err
  st : SetupState
  acts : List Act
  tree : List SrcPath

/-- Method `_clone_parser`: reuse an existing clone directory; otherwise run
`git clone` (raising on failure), followed for typescript by a submodule
init/update. -/
def cloneStep (env : Env) (st : SetupState) (lang url : String) : CloneRes :=
  match st.clones lang with
  | some tree => ⟨none, st, [], tree⟩
  | none =>
    match env.cloneTree lang with
    | none => ⟨some (Err.cloneFailed lang), st, [Act.cloneAct lang], []⟩
    | some tree =>
      if lang = "typescript" ∧ env.submoduleOk = false then
        ⟨some (Err.submoduleFailed lang), setClone st lang tree, [Act.cloneAct lang], []⟩
      else ⟨none, setClone st lang tree, [Act.cloneAct lang], tree⟩

/-- Outcome of `_build_parser`. -/
structure StepRes where
  err : Option Err
  st : SetupState
  acts : List Act
  units : List SrcPath

/-- Method `_build_parser`: make the per-language build directory, resolve
the source set (raising when it is empty), and dispatch to the Windows or
Unix strategy by OS. -/
def buildStep (env : Env) (lang : String) (tree : List SrcPath)
    (st : SetupState) : StepRes :=
  let cFiles := getSourceFiles lang tree
  if cFiles.isEmpty then ⟨some (Err.noSourceFiles lang), st, [Act.resolveAct lang], []⟩
  else
    let br :=
      if env.os = OS.windows then buildWindows env lang tree cFiles (st.builds lang)
      else buildUnix env lang cFiles (st.builds lang)
    ⟨br.err, setBuild st lang br.files, [Act.resolveAct lang, Act.buildAct lang], br.units⟩

/-- Outcome of `install_language`. -/
structure InstallOut where
  err : Option Err
  st : SetupState
  acts : List Act
  units : List SrcPath

/-- Method `install_language`: raise for a language outside
`LANGUAGE_CONFIGS`; return at once when the language is in the installed
set; otherwise clone, build, and only after a successful build add the
language to the installed set and persist it. -/
def installLanguage (env : Env) (st : SetupState) (lang : String) : InstallOut :=
  match lookupUrl lang with
  | none => ⟨some (Err.unsupportedLanguage lang), st, [], []⟩
  | some url =>
    if lang ∈ st.installedLanguages then ⟨none, st, [], []⟩
    else
      match cloneStep env st lang url with
      | ⟨some e, st1, acts1, _⟩ => ⟨some e, st1, acts1, []⟩
      | ⟨none, st1, acts1, tree⟩ =>
        match buildStep env lang tree st1 with
        | ⟨some e, st2, acts2, units⟩ => ⟨some e, st2, acts1 ++ acts2, units⟩
        | ⟨none, st2, acts2, units⟩ =>
          ⟨none,
            { st2 with
                installedLanguages := st.installedLanguages.insert lang,
                installedFile :=
                  some (StateFileContent.valid (st.installedLanguages.insert lang)) },
            acts1 ++ acts2, units⟩

/-- Result of `_check_dependencies`: either it passes, or the process is
halted by `sys.exit` (carrying the missing tools named in the message, when
any), or a Python exception propagates. -/
inductive DepOutcome
  | passed
  | exited (code : Nat) (missing : List String)
  | raised (e : Err)
deriving DecidableEq

/-- The required Unix tools that are absent from the search path, in the
order the source probes them. -/
def missingTools (env : Env) : List String :=
  ["git", "gcc", "g++"].filter fun t => !(env.toolOnPath t)

/-- The tree-sitter Python package bootstrap at the top of
`_check_dependencies`: import, or on failure install via a virtual
environment on Linux (exiting on pip failure) or via plain pip elsewhere. -/
def pkgStep (env : Env) : DepOutcome :=
  if env.pyPkgOk then DepOutcome.passed
  else
    match env.os with
    | OS.linux =>
      if env.venvPipOk = false then DepOutcome.raised Err.venvFailed
      else if env.pipOk then DepOutcome.passed else DepOutcome.exited 1 []
    | _ => if env.pipOk then DepOutcome.passed else DepOutcome.raised Err.pipFailed

/-- Method `_check_dependencies`: after the package bootstrap, on Linux
verify git, gcc and g++ and exit naming the missing ones; on Windows verify
that `cl` can be spawned; on any other system do nothing further. -/
def checkDependencies (env : Env) : DepOutcome :=
  match pkgStep env with
  | DepOutcome.passed =>
    match env.os with
    | OS.linux =>
      if (missingTools env).isEmpty then DepOutcome.passed
      else DepOutcome.exited 1 (missingTools env)
    | OS.windows => if env.clOnPath then DepOutcome.passed else DepOutcome.exited 1 []
    | OS.other => DepOutcome.passed
  | r => r

/-- Outcome of `install_all_languages`. -/
structure BatchOut where
  halted : Option DepOutcome
  st : SetupState
  report : List (String × Option Err)
  acts : List Act

/-- The per-language loop of `install_all_languages`: every language is
attempted and its failure, if any, is caught and reported without aborting
the remaining languages. -/
def batchLoop (env : Env) : List String → SetupState →
    SetupState × List (String × Option Err) × List Act
  | [], st => (st, [], [])
  | l :: rest, st =>
    let r := installLanguage env st l
    let nxt := batchLoop env rest r.st
    (nxt.1, (l, r.err) :: nxt.2.1, r.acts ++ nxt.2.2)

/-- Method `install_all_languages`: check dependencies first (halting the
whole run when they fail), then attempt every configured language in
registry order. -/
def installAllLanguages (env : Env) (st : SetupState) : BatchOut :=
  match checkDependencies env with
  | DepOutcome.passed =>
    let r := batchLoop env languageNames st
    ⟨none, r.1, r.2.1, r.2.2⟩
  | r => ⟨some r, st, [], []⟩

/-- Deterministic artifact file name inside `build/<language>`. -/
def artifactName (os : OS) : String :=
  if os = OS.windows then "parser.dll" else "parser.so"

/-- Outcome of `get_parser`: the artifact handed to the external tree-sitter
runtime is identified by language and artifact file name (standing for
`build/<language>/parser.<ext>`). -/
structure ParserRes where
  err : Option Err
  st : SetupState
  acts : List Act
  artifact : Option (String × String)

/-- Tail of `get_parser`: construct the runtime parser; an outdated runtime
raises, otherwise the artifact path is handed over. -/
def parserFinish (env : Env) (st : SetupState) (lang : String)
    (acts : List Act) : ParserRes :=
  if env.runtimeOk then ⟨none, st, acts, some (lang, artifactName env.os)⟩
  else ⟨some Err.runtimeOutdated, st, acts, none⟩

/-- Method `get_parser`: install the language first unless it is already in
the installed set, then construct and return the parser over the
deterministic artifact path. -/
def parserRequest (env : Env) (st : SetupState) (lang : String) : ParserRes :=
  if lang ∈ st.installedLanguages then parserFinish env st lang []
  else
    match installLanguage env st lang with
    | ⟨some e, st1, acts1, _⟩ => ⟨some e, st1, acts1, none⟩
    | ⟨none, st1, acts1, _⟩ => parserFinish env st1 lang acts1

/-- The spec's InstalledSet invariant: a language in the installed set has
its shared-library artifact in its build directory. -/
def artifactInv (os : OS) (st : SetupState) : Prop :=
  ∀ l, l ∈ st.installedLanguages → artifactName os ∈ st.builds l

/-- The default Source Set Resolver policy in the spec's words: all `.c`
files directly under the `src` subdirectory of the clone; when that set is
empty, all `.c` files found by a recursive search of the entire clone. -/
def specDefaultResolve (tree : List SrcPath) : List SrcPath :=
  let direct :=
    tree.filter fun p => decide (parentOf p = ["src"]) && decide (suffixOf (fileNameOf p) = ".c")
  if direct.isEmpty then tree.filter fun p => decide (suffixOf (fileNameOf p) = ".c")
  else direct

/-- A Linux environment in which every external step succeeds and every
clone produces a conventional `src/parser.c` layout. -/
def envAllOk : Env where
  os := OS.linux
  toolOnPath := fun _ => true
  clOnPath := true
  pyPkgOk := true
  pipOk := true
  venvPipOk := true
  cloneTree := fun _ => some [["src", "parser.c"]]
  submoduleOk := true
  ccOk := fun _ _ => true
  cxxOk := fun _ _ => true
  unixLinkOk := fun _ => true
  msvcFound := true
  clOk := fun _ => true
  scannerClOk := fun _ => true
  scannerLinkOk := fun _ => true
  clangOk := fun _ _ => true
  clangLinkOk := fun _ => true
  runtimeOk := true

/-- The all-success environment on Windows. -/
def envWin : Env := { envAllOk with os := OS.windows }

/-- An all-success environment in which every `git clone` fails. -/
def envCloneFail : Env := { envAllOk with cloneTree := fun _ => none }

/-- A Unix-like system that is not Linux (for example macOS): gcc is absent
from the search path and native compiles fail, yet nothing halts the run
before cloning. -/
def envDarwin : Env :=
  { envAllOk with
      os := OS.other
      toolOnPath := fun t => !(t == "gcc")
      ccOk := fun _ _ => false
      cxxOk := fun _ _ => false
      unixLinkOk := fun _ => false }

/-- A Linux environment whose search path is missing g++. -/
def envMissingLinux : Env := { envAllOk with toolOnPath := fun t => !(t == "g++") }

/-- An otherwise all-success Linux environment in which exactly one
language's clone (python) contains no C translation unit, so its source
resolution yields zero files. -/
def envBatch : Env :=
  { envAllOk with
      cloneTree := fun l =>
        if l = "python" then some [["src", "grammar.js"]]
        else if l = "php" then some [["php", "src", "parser.c"]]
        else some [["src", "parser.c"]] }

/-- Cloning leaves the installed set and the persisted file untouched. -/
theorem cloneStep_frame (env : Env) (st : SetupState) (lang url : String) :
    (cloneStep env st lang url).st.installedLanguages = st.installedLanguages ∧
    (cloneStep env st lang url).st.installedFile = st.installedFile := by
  unfold cloneStep
  cases h1 : st.clones lang with
  | some tree => exact ⟨rfl, rfl⟩
  | none =>
    cases h2 : env.cloneTree lang with
    | none => exact ⟨rfl, rfl⟩
    | some tree =>
      by_cases h3 : lang = "typescript" ∧ env.submoduleOk = false
      · simp only [if_pos h3]; exact ⟨rfl, rfl⟩
      · simp only [if_neg h3]; exact ⟨rfl, rfl⟩

/-- Building leaves the installed set and the persisted file untouched. -/
theorem buildStep_frame (env : Env) (lang : String) (tree : List SrcPath)
    (st : SetupState) :
    (buildStep env lang tree st).st.installedLanguages = st.installedLanguages ∧
    (buildStep env lang tree st).st.installedFile = st.installedFile := by
  unfold buildStep
  by_cases h : getSourceFiles lang tree = []
  · simp [h]
  · simp [h, setBuild]

/-- Creating a file makes it present. -/
theorem mem_addFile_self (bf : List String) (n : String) : n ∈ addFile bf n := by
  unfold addFile
  split
  · assumption
  · exact List.mem_append_right _ (by simp)

/-- Creating a file keeps the existing files. -/
theorem mem_addFile_of_mem (bf : List String) (n m : String) (h : m ∈ bf) :
    m ∈ addFile bf n := by
  unfold addFile
  split
  · exact h
  · exact List.mem_append_left _ h

/-- Unlinking one file keeps every other file. -/
theorem mem_removeFile (bf : List String) (n m : String) (h : m ∈ bf) (hne : m ≠ n) :
    m ∈ removeFile bf n :=
  List.mem_filter.mpr ⟨h, by simp [hne]⟩

/-- Cleanup keeps every file whose suffix is not an intermediate-artifact
extension. -/
theorem mem_cleanup (bf : List String) (m : String) (h : m ∈ bf)
    (hs : suffixOf m ∉ cleanupExts) : m ∈ cleanupBuildArtifacts bf :=
  List.mem_filter.mpr ⟨h, by simp [hs]⟩

/-- After cleanup no intermediate artifact is left. -/
theorem noIntermediates_cleanup (bf : List String) :
    noIntermediates (cleanupBuildArtifacts bf) = true := by
  unfold noIntermediates cleanupBuildArtifacts
  rw [List.all_eq_true]
  intro x hx
  exact (List.mem_filter.mp hx).2

/-- A successful Unix build leaves `parser.so` in the build directory. -/
theorem buildUnix_artifact (env : Env) (lang : String) (srcFiles : List SrcPath)
    (bf : List String) (h : (buildUnix env lang srcFiles bf).err = none) :
    "parser.so" ∈ (buildUnix env lang srcFiles bf).files := by
  unfold buildUnix at h ⊢
  rcases h1 : (compileSeq (env.ccOk lang) lang ".o" bf (cSrcOf srcFiles).dedup).1 with _ | e1
  · rcases h2 : (compileSeq (env.cxxOk lang) lang ".o"
        (compileSeq (env.ccOk lang) lang ".o" bf (cSrcOf srcFiles).dedup).2.1
        (cppSrcOf srcFiles).dedup).1 with _ | e2
    · by_cases h3 : env.unixLinkOk lang
      · simp [h1, h2, h3, mem_addFile_self]
      · simp [h1, h2, h3] at h
    · simp [h1, h2] at h
  · simp [h1] at h

/-- The shared library survives the intermediate-artifact cleanup after
being created. -/
theorem dll_mem_cleanup_addFile (bf : List String) :
    "parser.dll" ∈ cleanupBuildArtifacts (addFile bf "parser.dll") :=
  mem_cleanup _ _ (mem_addFile_self _ _) (by decide)

/-- The shared library survives the response-file unlink and the cleanup on
the successful general Windows path. -/
theorem dll_mem_win_files (bf : List String) :
    "parser.dll" ∈ cleanupBuildArtifacts (removeFile
      (addFile (addFile (addFile (addFile (addFile bf "sources.rsp") "parser.dll")
        "parser.pdb") "parser.lib") "parser.exp") "sources.rsp") :=
  mem_cleanup _ _
    (mem_removeFile _ _ _
      (mem_addFile_of_mem _ _ _ (mem_addFile_of_mem _ _ _
        (mem_addFile_of_mem _ _ _ (mem_addFile_self _ _)))) (by decide))
    (by decide)

/-- A successful Windows clang build leaves `parser.dll` in the build
directory. -/
theorem buildWindowsPhp_artifact (env : Env) (lang : String) (srcFiles : List SrcPath)
    (bf : List String) (h : (buildWindowsPhp env lang srcFiles bf).err = none) :
    "parser.dll" ∈ (buildWindowsPhp env lang srcFiles bf).files := by
  unfold buildWindowsPhp at h ⊢
  rcases h1 : (compileSeq (env.clangOk lang) lang ".obj" bf srcFiles.dedup).1 with _ | e1
  · by_cases h2 : env.clangLinkOk lang
    · simp [h1, h2, dll_mem_cleanup_addFile]
    · simp [h1, h2] at h
  · simp [h1] at h

/-- A successful scanner-fallback build leaves `parser.dll` in the build
directory. -/
theorem buildWindowsScanner_artifact (env : Env) (lang : String) (tree : List SrcPath)
    (bf : List String) (h : (buildWindowsScanner env lang tree bf).1 = none) :
    "parser.dll" ∈ (buildWindowsScanner env lang tree bf).2.1 := by
  unfold buildWindowsScanner at h ⊢
  by_cases h1 : ["src", "scanner.c"] ∈ tree
  · by_cases h2 : env.scannerClOk lang
    · by_cases h3 : env.scannerLinkOk lang
      · simp [h1, h2, h3, mem_addFile_self]
      · simp [h1, h2, h3] at h
    · simp [h1, h2] at h
  · simp [h1] at h

/-- A successful Windows build leaves `parser.dll` in the build directory,
on each of its three internal paths. -/
theorem buildWindows_artifact (env : Env) (lang : String) (tree srcFiles : List SrcPath)
    (bf : List String) (h : (buildWindows env lang tree srcFiles bf).err = none) :
    "parser.dll" ∈ (buildWindows env lang tree srcFiles bf).files := by
  unfold buildWindows at h ⊢
  by_cases hp : lang = "php"
  · simp only [hp, if_pos rfl] at h ⊢
    exact buildWindowsPhp_artifact env "php" srcFiles bf h
  · by_cases hm : env.msvcFound
    · by_cases hcl : env.clOk lang
      · simp [hp, hm, hcl, dll_mem_win_files]
      · by_cases hy : lang = "yaml" ∨ lang = "markdown"
        · simp only [if_neg hp, if_pos hm, if_neg hcl, if_pos hy] at h ⊢
          exact mem_cleanup _ _
            (mem_removeFile _ _ _
              (buildWindowsScanner_artifact env lang tree (addFile bf "sources.rsp") h)
              (by decide)) (by decide)
        · simp [hp, hm, hcl, hy] at h
    · simp [hp, hm] at h

/-- A successful `_build_parser` run leaves the OS-appropriate shared
library in the language's build directory. -/
theorem buildStep_artifact (env : Env) (lang : String) (tree : List SrcPath)
    (st : SetupState) (h : (buildStep env lang tree st).err = none) :
    artifactName env.os ∈ (buildStep env lang tree st).st.builds lang := by
  unfold buildStep at h ⊢
  by_cases he : getSourceFiles lang tree = []
  · simp [he] at h
  · by_cases hw : env.os = OS.windows
    · simp [he, hw, setBuild, artifactName] at h ⊢
      exact buildWindows_artifact _ _ _ _ _ h
    · simp [he, hw, setBuild, artifactName] at h ⊢
      exact buildUnix_artifact _ _ _ _ h

/-- Main case analysis of `install_language`: either the installed set and
the persisted file are unchanged (and success then means the language was
already installed), or the call succeeded freshly, added exactly this
language to the installed set, and persisted the new set. -/
theorem installLanguage_main (env : Env) (st : SetupState) (lang : String) :
    ((installLanguage env st lang).st.installedLanguages = st.installedLanguages ∧
      (installLanguage env st lang).st.installedFile = st.installedFile ∧
      ((installLanguage env st lang).err = none →
        lang ∈ st.installedLanguages ∧ (installLanguage env st lang).st = st)) ∨
    ((installLanguage env st lang).err = none ∧
      lang ∉ st.installedLanguages ∧
      (installLanguage env st lang).st.installedLanguages = st.installedLanguages.insert lang ∧
      (installLanguage env st lang).st.installedFile =
        some (StateFileContent.valid (st.installedLanguages.insert lang)) ∧
      artifactName env.os ∈ (installLanguage env st lang).st.builds lang) := by
  unfold installLanguage
  split
  · left; exact ⟨rfl, rfl, fun h => absurd h (by simp)⟩
  next url heq =>
    by_cases hc : lang ∈ st.installedLanguages
    · left; rw [if_pos hc]; exact ⟨rfl, rfl, fun _ => ⟨hc, rfl⟩⟩
    · rw [if_neg hc]
      split
      next e st1 a1 x hcl =>
        have hfr := cloneStep_frame env st lang url
        rw [hcl] at hfr
        left; exact ⟨hfr.1, hfr.2, fun h => absurd h (by simp)⟩
      next st1 a1 tr hcl =>
        have hfr := cloneStep_frame env st lang url
        rw [hcl] at hfr
        split
        next e st2 a2 us hb =>
          have hfr2 := buildStep_frame env lang tr st1
          rw [hb] at hfr2
          left; exact ⟨hfr2.1.trans hfr.1, hfr2.2.trans hfr.2, fun h => absurd h (by simp)⟩
        next st2 a2 us hb =>
          have hart := buildStep_artifact env lang tr st1
          rw [hb] at hart
          right; exact ⟨rfl, hc, rfl, rfl, hart rfl⟩

/-- Claim C1, as stated, fails: the source checks registry membership before
the installed-set check, so an identifier that sits in the installed set
(here loaded from a well-formed state file listing it) but is not a
configured language raises `ValueError` instead of returning success. -/
theorem claim1_cex :
    "zzz" ∈ (initState (some (StateFileContent.valid ["zzz"]))).installedLanguages ∧
    (installLanguage envAllOk (initState (some (StateFileContent.valid ["zzz"]))) "zzz").err =
      some (Err.unsupportedLanguage "zzz") :=
  ⟨by decide, rfl⟩

/-- Claim C1 (amended to supported languages): installing a supported
language that is already in the installed set returns success at once,
with no cloning, no source resolution, no build attempt, and a completely
unchanged state (installed set, persisted file, clones and build
directories alike). -/
theorem claim1_thm (env : Env) (st : SetupState) (lang : String)
    (hs : supported lang = true) (hi : lang ∈ st.installedLanguages) :
    installLanguage env st lang = ⟨none, st, [], []⟩ := by
  obtain ⟨url, hq⟩ := Option.isSome_iff_exists.mp hs
  unfold installLanguage
  rw [hq]
  exact if_pos hi

/-- Witness for the amended claim C1 at a concrete installed language. -/
theorem claim1_witness :
    installLanguage envAllOk (initState (some (StateFileContent.valid ["python"]))) "python" =
      ⟨none, initState (some (StateFileContent.valid ["python"])), [], []⟩ :=
  claim1_thm envAllOk (initState (some (StateFileContent.valid ["python"]))) "python"
    rfl (by decide)

/-- Claim C2: whenever `install_language` fails — at the clone, the source
resolution, or the build — the in-memory installed set and the persisted
state file are exactly as before, and the error is returned to the
caller. -/
theorem claim2_thm (env : Env) (st : SetupState) (lang : String) (e : Err)
    (h : (installLanguage env st lang).err = some e) :
    (installLanguage env st lang).st.installedLanguages = st.installedLanguages ∧
    (installLanguage env st lang).st.installedFile = st.installedFile := by
  rcases installLanguage_main env st lang with ⟨h1, h2, _⟩ | ⟨h1, _, _, _, _⟩
  · exact ⟨h1, h2⟩
  · exact Option.noConfusion (h1.symm.trans h)

/-- Witness for claim C2: a failing clone of python leaves both the
installed set and the persisted file unchanged. -/
theorem claim2_witness :
    (installLanguage envCloneFail (initState none) "python").st.installedLanguages =
      (initState none).installedLanguages ∧
    (installLanguage envCloneFail (initState none) "python").st.installedFile =
      (initState none).installedFile :=
  claim2_thm envCloneFail (initState none) "python" (Err.cloneFailed "python") rfl

/-- Claim C5, as stated, fails: malformed persisted content does not always
load as the empty set.  A state file holding the JSON document `"ab"` — a
string, not an array of identifiers — makes `set(json.load(f))` succeed
with the two characters as members, and one holding the JSON object with
the single key `python` loads as that key; both are non-empty. -/
theorem claim5_cex :
    loadInstalledLanguages (some (StateFileContent.strPayload "ab")) = ["a", "b"] ∧
    loadInstalledLanguages (some (StateFileContent.strPayload "ab")) ≠ [] ∧
    loadInstalledLanguages (some (StateFileContent.objPayload ["python"])) = ["python"] :=
  ⟨rfl, by decide, rfl⟩

/-- Claim C5 (amended): loading the persisted state never raises.  An
absent file, unparseable content, and parsed payloads on which `set()`
raises (a number, a boolean, `null`, an array with an unhashable member)
give the empty installed set, and a well-formed array of identifiers gives
exactly the set of its members.  But a parseable payload that is iterable
is not recovered as empty even when it is not an array of identifiers: a
JSON string loads as the set of its one-character substrings and a JSON
object as the set of its keys. -/
theorem claim5_thm (ids keys : List String) (s : String) (x : String) :
    loadInstalledLanguages none = [] ∧
    loadInstalledLanguages (some StateFileContent.invalid) = [] ∧
    (x ∈ loadInstalledLanguages (some (StateFileContent.valid ids)) ↔ x ∈ ids) ∧
    (x ∈ loadInstalledLanguages (some (StateFileContent.strPayload s)) ↔
      ∃ c ∈ s.toList, String.mk [c] = x) ∧
    (x ∈ loadInstalledLanguages (some (StateFileContent.objPayload keys)) ↔ x ∈ keys) := by
  refine ⟨rfl, rfl, ?_, ?_, ?_⟩
  · simp [loadInstalledLanguages, List.mem_dedup]
  · simp [loadInstalledLanguages, List.mem_dedup, List.mem_map]
  · simp [loadInstalledLanguages, List.mem_dedup]

/-- Claim C9: for every language without a grammar-specific override, source
resolution implements exactly the spec's default policy — the `.c` files
directly under `src`, and when that glob is empty, the `.c` files of a
recursive search of the whole clone. -/
theorem claim9_thm (lang : String) (tree : List SrcPath)
    (h : lang ∉ ["typescript", "php", "yaml", "markdown"]) :
    getSourceFiles lang tree = specDefaultResolve tree := by
  simp only [List.mem_cons, not_or] at h
  obtain ⟨h1, h2, h3, h4, _⟩ := h
  unfold getSourceFiles
  rw [if_neg h1, if_neg h2, if_neg (not_or.mpr ⟨h3, h4⟩)]
  rfl

/-- Witness for claim C9 on a concrete non-override language and clone. -/
theorem claim9_witness :
    getSourceFiles "rust" [["src", "parser.c"], ["docs", "readme.md"]] =
      specDefaultResolve [["src", "parser.c"], ["docs", "readme.md"]] :=
  claim9_thm "rust" [["src", "parser.c"], ["docs", "readme.md"]] (by decide)

/-- Claim C3: under the spec's InstalledSet invariant on the pre-state
(every installed language already has its artifact), a successful install of
a supported language leaves the installed set containing that language and
the OS-appropriate shared library (`parser.so` on Unix, `parser.dll` on
Windows) in the `build/<language>` directory. -/
theorem claim3_thm (env : Env) (st : SetupState) (lang : String)
    (hinv : artifactInv env.os st) (hs : supported lang = true)
    (h : (installLanguage env st lang).err = none) :
    lang ∈ (installLanguage env st lang).st.installedLanguages ∧
    artifactName env.os ∈ (installLanguage env st lang).st.builds lang := by
  rcases installLanguage_main env st lang with ⟨_, _, h3⟩ | ⟨_, _, h3, _, h5⟩
  · obtain ⟨hmem, hst⟩ := h3 h
    rw [hst]
    exact ⟨hmem, hinv lang hmem⟩
  · rw [h3]
    exact ⟨List.mem_insert_self _ _, h5⟩

/-- Witness for claim C3: a fresh, fully successful install of python on
Linux ends with python installed and `parser.so` in its build directory. -/
theorem claim3_witness :
    "python" ∈ (installLanguage envAllOk (initState none) "python").st.installedLanguages ∧
    artifactName envAllOk.os ∈
      (installLanguage envAllOk (initState none) "python").st.builds "python" :=
  claim3_thm envAllOk (initState none) "python"
    (by intro l hl; simp [initState, loadInstalledLanguages] at hl) rfl rfl

/-- The translation units handed to the compiler by the sequential compile
loop form a sublist of its input source list. -/
theorem compileSeq_units_sublist (ok : SrcPath → Bool) (lang objExt : String) :
    ∀ (srcs : List SrcPath) (bf : List String),
      List.Sublist (compileSeq ok lang objExt bf srcs).2.2 srcs
  | [], _ => List.Sublist.refl _
  | s :: rest, bf => by
    unfold compileSeq
    by_cases hok : ok s
    · simp only [if_pos hok]
      exact (compileSeq_units_sublist ok lang objExt rest _).cons₂ s
    · simp only [if_neg hok]
      exact (List.nil_sublist rest).cons₂ s

/-- Claim C6 (amended): the Unix strategy and the alternate-compiler
Windows strategy never hand the same translation unit to the compiler
twice, for every resolved source list — including lists in which the
per-grammar overrides appended a scanner file already matched by the glob.
The general Windows strategy is excluded: it writes the resolved list into
the response file without deduplication. -/
theorem claim6_thm (env : Env) (lang : String) (srcFiles : List SrcPath)
    (bf : List String) :
    (buildUnix env lang srcFiles bf).units.Nodup ∧
    (buildWindowsPhp env lang srcFiles bf).units.Nodup := by
  constructor
  · unfold buildUnix
    have s1 := compileSeq_units_sublist (env.ccOk lang) lang ".o" (cSrcOf srcFiles).dedup bf
    have n1 : (compileSeq (env.ccOk lang) lang ".o" bf (cSrcOf srcFiles).dedup).2.2.Nodup :=
      List.Nodup.sublist s1 (List.nodup_dedup _)
    have s2 := compileSeq_units_sublist (env.cxxOk lang) lang ".o" (cppSrcOf srcFiles).dedup
      (compileSeq (env.ccOk lang) lang ".o" bf (cSrcOf srcFiles).dedup).2.1
    have n2 : (compileSeq (env.cxxOk lang) lang ".o"
        (compileSeq (env.ccOk lang) lang ".o" bf (cSrcOf srcFiles).dedup).2.1
        (cppSrcOf srcFiles).dedup).2.2.Nodup :=
      List.Nodup.sublist s2 (List.nodup_dedup _)
    have hd : (compileSeq (env.ccOk lang) lang ".o" bf (cSrcOf srcFiles).dedup).2.2.Disjoint
        (compileSeq (env.cxxOk lang) lang ".o"
          (compileSeq (env.ccOk lang) lang ".o" bf (cSrcOf srcFiles).dedup).2.1
          (cppSrcOf srcFiles).dedup).2.2 := by
      intro x hx1 hx2
      have m1 : x ∈ cSrcOf srcFiles := List.mem_dedup.mp (s1.subset hx1)
      have m2 : x ∈ cppSrcOf srcFiles := List.mem_dedup.mp (s2.subset hx2)
      have e1 := List.of_mem_filter m1
      have e2 := List.of_mem_filter m2
      simp only [decide_eq_true_eq, Bool.or_eq_true] at e1 e2
      rcases e2 with e2 | e2 <;> rw [e1] at e2 <;> simp at e2
    have napp := n1.append n2 hd
    rcases h1 : (compileSeq (env.ccOk lang) lang ".o" bf (cSrcOf srcFiles).dedup).1 with _ | e1
    · rcases h2 : (compileSeq (env.cxxOk lang) lang ".o"
          (compileSeq (env.ccOk lang) lang ".o" bf (cSrcOf srcFiles).dedup).2.1
          (cppSrcOf srcFiles).dedup).1 with _ | e2
      · by_cases h3 : env.unixLinkOk lang
        · simp only [h1, h2, h3]
          simp
          exact napp
        · simp only [h1, h2, h3]
          simp
          exact napp
      · simp only [h1, h2]
        simp
        exact napp
    · simp only [h1]
      simp
      exact n1
  · unfold buildWindowsPhp
    have s1 := compileSeq_units_sublist (env.clangOk lang) lang ".obj" srcFiles.dedup bf
    have n1 : (compileSeq (env.clangOk lang) lang ".obj" bf srcFiles.dedup).2.2.Nodup :=
      List.Nodup.sublist s1 (List.nodup_dedup _)
    rcases h1 : (compileSeq (env.clangOk lang) lang ".obj" bf srcFiles.dedup).1 with _ | e1
    · by_cases h2 : env.clangLinkOk lang
      · simp only [h1, h2]
        simp
        exact n1
      · simp only [h1, h2]
        simp
        exact n1
    · simp only [h1]
      simp
      exact n1

/-- Claim C6, as stated, fails on the general Windows strategy: for yaml the
resolved source list contains `src/scanner.c` twice (matched by the glob and
appended again), and `_build_windows` writes that list into the compiler
response file without deduplication, so the translation units handed to
`cl` contain a path twice even on a successful compile. -/
theorem claim6_cex :
    getSourceFiles "yaml" [["src", "parser.c"], ["src", "scanner.c"]] =
      [["src", "parser.c"], ["src", "scanner.c"], ["src", "scanner.c"]] ∧
    ¬ (buildWindows envWin "yaml" [["src", "parser.c"], ["src", "scanner.c"]]
        (getSourceFiles "yaml" [["src", "parser.c"], ["src", "scanner.c"]]) []).units.Nodup :=
  ⟨rfl, by decide⟩

/-- Claim C7, as stated, fails on the Unix strategy: a fully successful
Unix build leaves the object file `parser.o` — whose suffix is on the
cleanup list — next to `parser.so`, because `_build_unix` never calls
`_cleanup_build_artifacts`. -/
theorem claim7_cex :
    (buildUnix envAllOk "python" [["src", "parser.c"]] []).err = none ∧
    (buildUnix envAllOk "python" [["src", "parser.c"]] []).files = ["parser.o", "parser.so"] ∧
    suffixOf "parser.o" ∈ cleanupExts :=
  ⟨rfl, rfl, by decide⟩

/-- Claim C7 (amended): once the toolchain is found, the general Windows
strategy removes all intermediate artifacts after every build attempt,
success or failure, through its `finally` block; the alternate-compiler
Windows path removes them after a successful build.  The Unix strategy
performs no cleanup at all, and the alternate-compiler path skips cleanup
when a compile or link step fails. -/
theorem claim7_thm (env : Env) (lang : String) (tree srcFiles : List SrcPath)
    (bf : List String) :
    (lang ≠ "php" → env.msvcFound = true →
      noIntermediates (buildWindows env lang tree srcFiles bf).files = true) ∧
    ((buildWindowsPhp env lang srcFiles bf).err = none →
      noIntermediates (buildWindowsPhp env lang srcFiles bf).files = true) := by
  constructor
  · intro hp hm
    unfold buildWindows
    rw [if_neg hp, if_pos hm]
    exact noIntermediates_cleanup _
  · intro h
    unfold buildWindowsPhp at h ⊢
    rcases h1 : (compileSeq (env.clangOk lang) lang ".obj" bf srcFiles.dedup).1 with _ | e1
    · by_cases h2 : env.clangLinkOk lang
      · simp [h1, h2, noIntermediates_cleanup]
      · simp [h1, h2] at h
    · simp [h1] at h

/-- Witness for the amended claim C7 at concrete Windows builds, one per
strategy. -/
theorem claim7_witness :
    noIntermediates (buildWindows envWin "python" [["src", "parser.c"]]
      [["src", "parser.c"]] []).files = true ∧
    noIntermediates (buildWindowsPhp envWin "php" [["php", "src", "parser.c"]] []).files = true :=
  ⟨(claim7_thm envWin "python" [["src", "parser.c"]] [["src", "parser.c"]] []).1
      (by decide) rfl,
    (claim7_thm envWin "php" [["php", "src", "parser.c"]] [["php", "src", "parser.c"]] []).2 rfl⟩

/-- Installing one language never removes another from the installed set. -/
theorem installLanguage_mono (env : Env) (st : SetupState) (lang x : String)
    (hx : x ∈ st.installedLanguages) :
    x ∈ (installLanguage env st lang).st.installedLanguages := by
  rcases installLanguage_main env st lang with ⟨h1, _, _⟩ | ⟨_, _, h3, _, _⟩
  · rw [h1]; exact hx
  · rw [h3]; exact List.mem_insert_of_mem hx

/-- A successful install leaves its language in the installed set. -/
theorem installLanguage_success_mem (env : Env) (st : SetupState) (lang : String)
    (h : (installLanguage env st lang).err = none) :
    lang ∈ (installLanguage env st lang).st.installedLanguages := by
  rcases installLanguage_main env st lang with ⟨h1, _, h3⟩ | ⟨_, _, h3, _, _⟩
  · rw [h1]; exact (h3 h).1
  · rw [h3]; exact List.mem_insert_self _ _

/-- The batch loop attempts every language in order, never loses an already
installed language, and every language it reports successful is in the
final installed set. -/
theorem batchLoop_spec (env : Env) (langs : List String) : ∀ st : SetupState,
    (batchLoop env langs st).2.1.map Prod.fst = langs ∧
    (∀ x, x ∈ st.installedLanguages → x ∈ (batchLoop env langs st).1.installedLanguages) ∧
    (∀ l, (l, (none : Option Err)) ∈ (batchLoop env langs st).2.1 →
      l ∈ (batchLoop env langs st).1.installedLanguages) := by
  induction langs with
  | nil =>
    intro st
    refine ⟨rfl, fun x hx => hx, ?_⟩
    intro l hl
    simp [batchLoop] at hl
  | cons hd tl ih =>
    intro st
    obtain ⟨ih1, ih2, ih3⟩ := ih (installLanguage env st hd).st
    refine ⟨?_, ?_, ?_⟩
    · show ((hd, (installLanguage env st hd).err) ::
        (batchLoop env tl (installLanguage env st hd).st).2.1).map Prod.fst = hd :: tl
      simp [ih1]
    · intro x hx
      exact ih2 x (installLanguage_mono env st hd x hx)
    · intro l hl
      have hl' : (l, (none : Option Err)) ∈ (hd, (installLanguage env st hd).err) ::
          (batchLoop env tl (installLanguage env st hd).st).2.1 := hl
      rcases List.mem_cons.mp hl' with heq | htl
      · have hl1 : l = hd := congrArg Prod.fst heq
        have hl2 : (installLanguage env st hd).err = none := (congrArg Prod.snd heq).symm
        subst hl1
        exact ih2 l (installLanguage_success_mem env st l hl2)
      · exact ih3 l htl

/-- When the dependency check passes, the batch run is the batch loop over
the configured languages. -/
theorem installAllLanguages_passed (env : Env) (st : SetupState)
    (h : checkDependencies env = DepOutcome.passed) :
    installAllLanguages env st =
      ⟨none, (batchLoop env languageNames st).1,
        (batchLoop env languageNames st).2.1, (batchLoop env languageNames st).2.2⟩ := by
  unfold installAllLanguages
  rw [h]

/-- When the dependency check does not pass, the batch run halts with it
and touches nothing. -/
theorem installAllLanguages_halted (env : Env) (st : SetupState) (r : DepOutcome)
    (h : checkDependencies env = r) (hr : r ≠ DepOutcome.passed) :
    installAllLanguages env st = ⟨some r, st, [], []⟩ := by
  unfold installAllLanguages
  rw [h]
  cases r with
  | passed => exact absurd rfl hr
  | exited c m => rfl
  | raised e => rfl

/-- Claim C4: in a batch run in which exactly one language fails, every
configured language is attempted, in registry order (so the failing one is
reported failed and the other N minus 1 are still attempted), and every
language reported successful is in the final installed set. -/
theorem claim4_thm (env : Env) (st : SetupState)
    (h1 : (installAllLanguages env st).report.countP (fun q => q.2.isSome) = 1) :
    (installAllLanguages env st).report.map Prod.fst = languageNames ∧
    ∀ l, (l, (none : Option Err)) ∈ (installAllLanguages env st).report →
      l ∈ (installAllLanguages env st).st.installedLanguages := by
  cases hd : checkDependencies env with
  | passed =>
    have hb := batchLoop_spec env languageNames st
    have hr : (installAllLanguages env st).report = (batchLoop env languageNames st).2.1 := by
      rw [installAllLanguages_passed env st hd]
    have hst : (installAllLanguages env st).st = (batchLoop env languageNames st).1 := by
      rw [installAllLanguages_passed env st hd]
    rw [hr, hst]
    exact ⟨hb.1, hb.2.2⟩
  | exited c m =>
    have hr : (installAllLanguages env st).report = [] := by
      rw [installAllLanguages_halted env st _ hd (by simp)]
    rw [hr] at h1
    simp at h1
  | raised e =>
    have hr : (installAllLanguages env st).report = [] := by
      rw [installAllLanguages_halted env st _ hd (by simp)]
    rw [hr] at h1
    simp at h1

set_option maxHeartbeats 4000000 in
/-- Witness for claim C4: in the concrete batch run where python's clone
holds no C translation unit (and only python fails), every language is
attempted in order and a successfully built language is installed. -/
theorem claim4_witness :
    (installAllLanguages envBatch (initState none)).report.map Prod.fst = languageNames ∧
    "javascript" ∈ (installAllLanguages envBatch (initState none)).st.installedLanguages := by
  have h := claim4_thm envBatch (initState none) (by decide)
  exact ⟨h.1, h.2 "javascript" (by decide)⟩

set_option maxHeartbeats 1000000 in
/-- Claim C8, as stated for every Unix-like system, fails: on a non-Linux
Unix-like system (for example macOS, where `platform.system()` is neither
`Linux` nor `Windows`) with gcc missing from the search path, the run is
not halted and cloning proceeds. -/
theorem claim8_cex :
    envDarwin.os ≠ OS.linux ∧ envDarwin.os ≠ OS.windows ∧
    envDarwin.toolOnPath "gcc" = false ∧
    (installAllLanguages envDarwin (initState none)).halted = none ∧
    Act.cloneAct "python" ∈ (installAllLanguages envDarwin (initState none)).acts := by
  refine ⟨by decide, by decide, rfl, rfl, by decide⟩

/-- Claim C8 (amended to Linux): when the Python-package bootstrap succeeds
and any of git, gcc, g++ is missing from the Linux search path, the batch
run halts before attempting any language — no cloning, no resolving, no
building — with exit code 1 naming exactly the missing tools, and the whole
state (installed set and persisted file included) is untouched. -/
theorem claim8_thm (env : Env) (st : SetupState) (h1 : env.os = OS.linux)
    (h2 : env.pyPkgOk = true) (h3 : missingTools env ≠ []) :
    (installAllLanguages env st).halted = some (DepOutcome.exited 1 (missingTools env)) ∧
    (installAllLanguages env st).st = st ∧
    (installAllLanguages env st).report = [] ∧
    (installAllLanguages env st).acts = [] := by
  have hc : checkDependencies env = DepOutcome.exited 1 (missingTools env) := by
    unfold checkDependencies pkgStep
    simp [h1, h2, h3]
  rw [installAllLanguages_halted env st _ hc (by simp)]
  exact ⟨rfl, rfl, rfl, rfl⟩

/-- Witness for the amended claim C8: with only g++ missing, the run halts
naming exactly g++, with the state untouched and nothing attempted. -/
theorem claim8_witness :
    (installAllLanguages envMissingLinux (initState none)).halted =
      some (DepOutcome.exited 1 (missingTools envMissingLinux)) ∧
    (installAllLanguages envMissingLinux (initState none)).st = initState none ∧
    (installAllLanguages envMissingLinux (initState none)).report = [] ∧
    (installAllLanguages envMissingLinux (initState none)).acts = [] :=
  claim8_thm envMissingLinux (initState none) rfl rfl (by decide)

/-- Claim C10, as stated, fails for an unsupported identifier that the
state file lists as installed: `get_parser` skips the install call — and
with it the only support check — for identifiers in the installed set, so
the program raises no error and hands the identifier to the external
runtime. -/
theorem claim10_cex :
    supported "zzz" = false ∧
    "zzz" ∈ (initState (some (StateFileContent.valid ["zzz"]))).installedLanguages ∧
    (parserRequest envAllOk (initState (some (StateFileContent.valid ["zzz"]))) "zzz").err =
      none :=
  ⟨rfl, by decide, rfl⟩

/-- Claim C10 (amended): `get_parser` on a language outside the installed
set first runs the full install pipeline — its resulting state is the
install's state — and on success the language is in the installed set, the
enlarged set is persisted to the state file, and the deterministic artifact
path is handed to the runtime.  For an unsupported identifier outside the
installed set it raises the unsupported-language error with no side effect
at all; an unsupported identifier inside the installed set skips the check
entirely. -/
theorem claim10_thm (env : Env) (st : SetupState) (lang : String) :
    (lang ∉ st.installedLanguages →
      (parserRequest env st lang).st = (installLanguage env st lang).st ∧
      ((parserRequest env st lang).err = none →
        lang ∈ (parserRequest env st lang).st.installedLanguages ∧
        (parserRequest env st lang).st.installedFile =
          some (StateFileContent.valid ((parserRequest env st lang).st.installedLanguages)) ∧
        (parserRequest env st lang).artifact = some (lang, artifactName env.os))) ∧
    (supported lang = false → lang ∉ st.installedLanguages →
      (parserRequest env st lang).err = some (Err.unsupportedLanguage lang) ∧
      (parserRequest env st lang).st = st ∧
      (parserRequest env st lang).acts = [] ∧
      (parserRequest env st lang).artifact = none) := by
  constructor
  · intro hni
    unfold parserRequest
    rw [if_neg hni]
    split
    next e st1 a1 u1 hi =>
      refine ⟨by rw [hi], ?_⟩
      intro habs
      exact absurd habs (by simp)
    next st1 a1 u1 hi =>
      have h1 : (installLanguage env st lang).err = none := by rw [hi]
      rcases installLanguage_main env st lang with ⟨_, _, h3⟩ | ⟨_, _, h3, h4, _⟩
      · exact absurd (h3 h1).1 hni
      · rw [hi] at h3 h4
        unfold parserFinish
        by_cases hr : env.runtimeOk
        · rw [if_pos hr]
          refine ⟨by rw [hi], fun _ => ⟨?_, ?_, rfl⟩⟩
          · show lang ∈ st1.installedLanguages
            rw [h3]
            exact List.mem_insert_self _ _
          · show st1.installedFile = some (StateFileContent.valid st1.installedLanguages)
            rw [h3, h4]
        · rw [if_neg hr]
          exact ⟨by rw [hi], fun habs => absurd habs (by simp)⟩
  · intro hsf hni
    cases hq : lookupUrl lang with
    | some u =>
      unfold supported at hsf
      rw [hq] at hsf
      simp at hsf
    | none =>
      have hi : installLanguage env st lang =
          ⟨some (Err.unsupportedLanguage lang), st, [], []⟩ := by
        unfold installLanguage
        rw [hq]
      unfold parserRequest
      rw [if_neg hni, hi]
      exact ⟨rfl, rfl, rfl, rfl⟩

set_option maxHeartbeats 1000000 in
/-- Witness for the amended claim C10: a successful fresh request for
python installs and persists it before handing over the artifact path, and
a request for an unsupported identifier outside the installed set fails
with no effect. -/
theorem claim10_witness :
    ("python" ∈ (parserRequest envAllOk (initState none) "python").st.installedLanguages ∧
      (parserRequest envAllOk (initState none) "python").st.installedFile =
        some (StateFileContent.valid
          ((parserRequest envAllOk (initState none) "python").st.installedLanguages)) ∧
      (parserRequest envAllOk (initState none) "python").artifact =
        some ("python", artifactName envAllOk.os)) ∧
    ((parserRequest envAllOk (initState none) "zwz").err =
        some (Err.unsupportedLanguage "zwz") ∧
      (parserRequest envAllOk (initState none) "zwz").st = initState none ∧
      (parserRequest envAllOk (initState none) "zwz").acts = [] ∧
      (parserRequest envAllOk (initState none) "zwz").artifact = none) := by
  constructor
  · exact ((claim10_thm envAllOk (initState none) "python").1 (by decide)).2 rfl
  · exact (claim10_thm envAllOk (initState none) "zwz").2 rfl (by decide)
